import Mathlib

/-!
Verification development for the `@topcli/async-cli-spinner` package
(`src/index.js`).  Strings are embedded as lists of Unicode code points
(`List Nat`), matching how the JavaScript code slices and scans them
(all code points involved are below U+FFFF, so UTF-16 slicing and
code-point slicing agree).  External collaborators (`ansi-regex`,
`strip-ansi`, the wcwidth measurement, the `kleur` color table and the
`cli-spinners` preset table) are modelled at their interface, as the
specification scopes them.
-/

/-- The escape code point (0x1B) that starts every ANSI escape sequence. -/
def escCode : Nat := 27

/-- The style-reset sequence `ESC [ 0 m` appended by `lineToRender` after a
truncation (src/index.js line 229). -/
def resetSeq : List Nat := [27, 91, 48, 109]

/-- Membership in the intro character class of the `ansi-regex` pattern,
`[ ] ( ) # ; ?` and the two bracket characters. -/
def isIntroB (c : Nat) : Bool :=
  c == 91 || c == 93 || c == 40 || c == 41 || c == 35 || c == 59 || c == 63

/-- Decimal digit code points. -/
def isDigitB (c : Nat) : Bool :=
  48 ≤ c && c ≤ 57

/-- Membership in the final-byte class of the `ansi-regex` CSI alternative:
digits, `A`-`P`, `R`-`T`, `Z`, `c`, `f`-`n`, `q`-`u`, `y`, `=`, `>`, `<`, `~`. -/
def isFinalB (c : Nat) : Bool :=
  isDigitB c || (65 ≤ c && c ≤ 80) || (82 ≤ c && c ≤ 84) || c == 90 || c == 99 ||
  (102 ≤ c && c ≤ 110) || (113 ≤ c && c ≤ 117) || c == 121 ||
  c == 61 || c == 62 || c == 60 || c == 126

/-- Modelled from the `ansi-regex` collaborator: length of the escape-sequence
match anchored at the head of the list, if any.  This implements the CSI
alternative of the pattern
`ESC [intro chars]* (digits)? final-byte` with the backtracking rule that a
trailing digit can itself serve as the final byte (which is why the regex also
matches a truncated sequence such as `ESC [ 3`).  Parameter strings with
semicolon groups or more than four digits, and the OSC alternative terminated
by BEL, do not occur in any string this development evaluates. -/
def ansiMatchLen (l : List Nat) : Option Nat :=
  match l with
  | [] => none
  | c :: rest =>
    if c = escCode then
      let intro := rest.takeWhile isIntroB
      let rest2 := rest.drop intro.length
      let params := rest2.takeWhile isDigitB
      let rest3 := rest2.drop params.length
      match rest3 with
      | d :: _ =>
        if isFinalB d then some (1 + intro.length + params.length + 1)
        else if 0 < params.length then some (1 + intro.length + params.length)
        else none
      | [] => if 0 < params.length then some (1 + intro.length + params.length) else none
    else none

/-- Fueled scan collecting all escape-sequence matches left to right, the way
a global regex match proceeds.  The fuel only needs to dominate the length of
the list. -/
def ansiMatchesF : Nat → List Nat → List (List Nat)
  | 0, _ => []
  | _, [] => []
  | fuel + 1, c :: rest =>
    match ansiMatchLen (c :: rest) with
    | some n => (c :: rest).take n :: ansiMatchesF fuel (rest.drop (n - 1))
    | none => ansiMatchesF fuel rest

/-- All escape-sequence matches of a string, i.e. `sliced.match(ansiRegex())`
from src/index.js line 220. -/
def ansiMatches (l : List Nat) : List (List Nat) :=
  ansiMatchesF l.length l

/-- Fueled version of the `strip-ansi` collaborator: drop every
escape-sequence match, keep everything else. -/
def stripAnsiF : Nat → List Nat → List Nat
  | 0, l => l
  | _, [] => []
  | fuel + 1, c :: rest =>
    match ansiMatchLen (c :: rest) with
    | some n => stripAnsiF fuel (rest.drop (n - 1))
    | none => c :: stripAnsiF fuel rest

/-- The `strip-ansi` collaborator: remove every escape-sequence match. -/
def stripAnsi (l : List Nat) : List Nat :=
  stripAnsiF l.length l

/-- Modelled from the width-measurement collaborator: ranges of code points
rendered two columns wide (Hangul Jamo, CJK and adjacent blocks, Hangul
syllables, CJK compatibility, fullwidth forms). -/
def isWideB (c : Nat) : Bool :=
  (4352 ≤ c && c ≤ 4447) || (11904 ≤ c && c ≤ 42191) ||
  (44032 ≤ c && c ≤ 55203) || (63744 ≤ c && c ≤ 64255) ||
  (65281 ≤ c && c ≤ 65376) || (65504 ≤ c && c ≤ 65510)

/-- Modelled from the width-measurement collaborator (`@topcli/wcwidth`):
control characters measure zero columns, double-width glyphs two, everything
else one. -/
def wcwidthChar (c : Nat) : Nat :=
  if c < 32 then 0
  else if 127 ≤ c && c ≤ 159 then 0
  else if isWideB c then 2
  else 1

/-- Width of a whole string: sum of the per-character widths. -/
def wcwidthStr (l : List Nat) : Nat :=
  (l.map wcwidthChar).sum

/-- Modelled from the `kleur` collaborator: the open/close escape-sequence
pair for each supported color name, `none` for an unsupported name (for which
`kleur[name]` is `undefined` and calling it throws). -/
def kleurLookup (name : String) : Option (List Nat × List Nat) :=
  match name with
  | "black" => some ([27, 91, 51, 48, 109], [27, 91, 51, 57, 109])
  | "red" => some ([27, 91, 51, 49, 109], [27, 91, 51, 57, 109])
  | "green" => some ([27, 91, 51, 50, 109], [27, 91, 51, 57, 109])
  | "yellow" => some ([27, 91, 51, 51, 109], [27, 91, 51, 57, 109])
  | "blue" => some ([27, 91, 51, 52, 109], [27, 91, 51, 57, 109])
  | "magenta" => some ([27, 91, 51, 53, 109], [27, 91, 51, 54, 109])
  | "cyan" => some ([27, 91, 51, 54, 109], [27, 91, 51, 57, 109])
  | "white" => some ([27, 91, 51, 55, 109], [27, 91, 51, 57, 109])
  | "gray" => some ([27, 91, 57, 48, 109], [27, 91, 51, 57, 109])
  | "grey" => some ([27, 91, 57, 48, 109], [27, 91, 51, 57, 109])
  | _ => none

/-- Wrapping a glyph in a color: open sequence, glyph, close sequence (the
glyphs colored here contain no close code, so the nested-color rewriting of
`kleur` never fires). -/
def kleurWrap (k : List Nat × List Nat) (s : List Nat) : List Nat :=
  k.1 ++ s ++ k.2

/-- The frame stored at a cursor position, `frames[frameIndex]`
(src/index.js line 204); out-of-range reads give the empty string. -/
def frameAt (frames : List (List Nat)) (i : Nat) : List Nat :=
  frames.getD i []

/-- Frame selection of `lineToRender` (src/index.js lines 202-209): the
current animation frame when no symbol is passed, the symbol otherwise. -/
def frameArg (frames : List (List Nat)) (i : Nat) (symbol : Option (List Nat)) : List Nat :=
  match symbol with
  | none => frameAt frames i
  | some s => s

/-- The frame-index update of src/index.js line 205:
`this.frameIndex = ++this.frameIndex < frames.length ? this.frameIndex : 0`. -/
def nextIndex (frames : List (List Nat)) (i : Nat) : Nat :=
  if i + 1 < frames.length then i + 1 else 0

/-- The raw candidate line of src/index.js line 214:
frame, one space, prefix text, body text. -/
def rawLineOf (frame pfx txt : List Nat) : List Nat :=
  frame ++ [32] ++ pfx ++ txt

/-- The fixed-point loop of src/index.js lines 217-225: slice the raw line to
`cols + count` characters, recount the escape-sequence matches in the slice,
and repeat until the count stabilises.  The JavaScript loop is unbounded; the
fuel given by `renderRaw` dominates every terminating run. -/
def fixCount (raw : List Nat) (cols : Nat) : Nat → Nat → Nat
  | 0, c => c
  | fuel + 1, c =>
    let m := ansiMatches (raw.take (cols + c))
    if m.length = c then c else fixCount raw cols fuel m.length

/-- The truncation pipeline of src/index.js lines 216-232: stabilise the
match count, add the measured width of each matched escape sequence, and if
the stripped width of the raw line exceeds the terminal width, slice and
append the style reset. -/
def renderRaw (cols : Nat) (raw : List Nat) : List Nat :=
  let c := fixCount raw cols (raw.length + 2) 0
  let arr := ansiMatches (raw.take (cols + c))
  let count := c + (arr.map wcwidthStr).sum
  if cols < wcwidthStr (stripAnsi raw) then raw.take (cols + count) ++ resetSeq
  else raw

/-- The line renderer `Spinner.prototype.lineToRender`
(src/index.js lines 199-233): pick the frame (advancing the frame index only
when no symbol is given), apply the color wrapping (an unsupported color name
makes `kleur[this.color]` undefined, so the call throws), build the raw line
and truncate it.  Returns the rendered string and the new frame index. -/
def lineToRender (cols : Nat) (frames : List (List Nat)) (frameIndex : Nat)
    (color : Option String) (pfx txt : List Nat) (symbol : Option (List Nat)) :
    Except String (List Nat × Nat) :=
  let frame0 := frameArg frames frameIndex symbol
  let newIdx :=
    match symbol with
    | none => nextIndex frames frameIndex
    | some _ => frameIndex
  match color with
  | none => .ok (renderRaw cols (rawLineOf frame0 pfx txt), newIdx)
  | some cname =>
    match kleurLookup cname with
    | some k => .ok (renderRaw cols (rawLineOf (kleurWrap k frame0) pfx txt), newIdx)
    | none => .error "kleur is not a function at this color"

example : ansiMatchLen [27, 91, 51, 49, 109] = some 5 := by decide
example : ansiMatchLen [27, 91] = none := by decide
example : ansiMatchLen [27, 91, 51] = some 3 := by decide
example : stripAnsi [27, 91, 51, 49, 109, 97, 98] = [97, 98] := by decide
example : stripAnsi [27, 91, 27, 91, 48, 109] = [27, 91] := by decide
example :
    lineToRender 4 [[10251]] 0 none [] [19968, 19968, 19968, 19968] none =
      .ok ([10251, 32, 19968, 19968, 27, 91, 48, 109], 0) := rfl
example :
    lineToRender 2 [[10251]] 0 (some "red") [] [104, 101, 121] none =
      .ok ([27, 91, 27, 91, 48, 109], 0) := rfl

/-- The single (non-global) replacement of the first `\r\n`, `\n` or `\r`
performed by `value.replace(/\r?\n|\r/, "")` in the text and prefix setters
(src/index.js lines 88 and 107). -/
def replaceFirstNewline : List Nat → List Nat
  | [] => []
  | c :: rest =>
    if c = 13 then if rest.head? = some 10 then rest.tail else rest
    else if c = 10 then rest
    else c :: replaceFirstNewline rest

/-- The `text` setter (src/index.js lines 84-89): a non-string input (the
`none` case here) throws a `TypeError`, a string is stored after one newline
replacement. -/
def setText : Option (List Nat) → Except String (List Nat)
  | some v => .ok (replaceFirstNewline v)
  | none => .error "text must be a type of string"

/-- Modelled from the spec: "strips every `\n`/`\r` on assignment" — the
fully stripped value the claim says reading `text` back should yield. -/
def stripAllNewlines (v : List Nat) : List Nat :=
  v.filter (fun c => !(c == 10 || c == 13))

/-- The fixed separator appended to a prefix text, the string " - "
(src/index.js line 107). -/
def prefixSep : List Nat := [32, 45, 32]

/-- The `prefixText` setter (src/index.js lines 106-108): a string input (the
`some` case) is stored after one newline replacement with the separator
appended, any non-string input stores the empty string. -/
def setPrefixText : Option (List Nat) → List Nat
  | some v => replaceFirstNewline v ++ prefixSep
  | none => []

/-- A JavaScript value as far as the option validations inspect one: a
string, a boolean, a number, or a nullish value. -/
inductive JsV where
  | vStr (s : String)
  | vBool (b : Bool)
  | vNum (n : Nat)
  | vNull
deriving DecidableEq

/-- The `color` setter (src/index.js lines 127-132): any string and any
nullish value are accepted as they are; every other value throws a
`TypeError`.  No color-name validation happens here. -/
def setColor : JsV → Except String (Option String)
  | .vStr s => .ok (some s)
  | .vNull => .ok none
  | .vBool _ => .error "Color must be a type of string or undefined"
  | .vNum _ => .error "Color must be a type of string or undefined"

/-- A stored spinner definition: the frame list and the interval. -/
structure SpinnerObjDef where
  frames : List (List Nat)
  interval : Nat
deriving DecidableEq

/-- A value assigned to the `spinner` property as the setter inspects it: a
plain object whose `frames` and `interval` fields may each be missing, a
string naming a preset, a nullish value, or anything else. -/
inductive SpinnerOptVal where
  | obj (frames : Option (List (List Nat))) (interval : Option Nat)
  | str (name : String)
  | nullish
  | other

/-- Modelled from the `cli-spinners` collaborator: the preset table, with the
`dots` preset (ten braille frames, 80 ms interval) that is also the process
default. -/
def cliSpinnersTable (name : String) : Option SpinnerObjDef :=
  match name with
  | "dots" =>
    some ⟨[[10251], [10265], [10297], [10296], [10300], [10292], [10278], [10279], [10247], [10255]], 80⟩
  | _ => none

/-- The process-wide default preset name, `Spinner.DEFAULT_SPINNER`
(src/index.js line 470). -/
def defaultSpinnerName : String := "dots"

/-- The `spinner` setter (src/index.js lines 151-179): a plain object must
carry both `frames` and `interval`, a string must name a preset, a nullish
value falls back to the default preset, anything else throws; every
successful branch then resets the frame index to 0 (line 178).  Returns the
stored spinner paired with the new frame index. -/
def setSpinner : SpinnerOptVal → Except String (SpinnerObjDef × Nat)
  | .obj none _ => .error "Spinner object must have a frames property"
  | .obj (some _) none => .error "Spinner object must have an interval property"
  | .obj (some f) (some i) => .ok (⟨f, i⟩, 0)
  | .str name =>
    match cliSpinnersTable name with
    | some sp => .ok (sp, 0)
    | none => .error ("There is no built-in spinner named " ++ name)
  | .nullish => .ok ((cliSpinnersTable defaultSpinnerName).getD ⟨[], 0⟩, 0)
  | .other => .error "spinner must be a type of string|object|undefined"

/-- The immediate render performed by `start()` (src/index.js lines 273-274):
the frame index is reset to 0, discarding its previous value, and
`lineToRender()` runs with no symbol. -/
def startLine (cols : Nat) (frames : List (List Nat)) (_oldIdx : Nat)
    (color : Option String) (pfx txt : List Nat) : Except String (List Nat × Nat) :=
  lineToRender cols frames 0 color pfx txt none

/-- Iterated frame consumption: what `k` successive symbol-less renders
consume and where they leave the frame index. -/
def consumeFrames (frames : List (List Nat)) : Nat → Nat → List (List Nat) × Nat
  | i, 0 => ([], i)
  | i, k + 1 =>
    let f := frameArg frames i none
    let r := consumeFrames frames (nextIndex frames i) k
    (f :: r.1, r.2)

/-- The process-wide running counter `Spinner.count` (src/index.js line 471). -/
structure ProcCounter where
  count : Nat
deriving DecidableEq

/-- The per-instance state the position bookkeeping sees: the `verbose` flag
fixed at construction and the stack position, `none` until the one-shot
start listener has fired. -/
structure SpinnerInst where
  verbose : Bool
  spinnerPos : Option Nat
deriving DecidableEq

/-- One `start()` call as the position bookkeeping sees it (src/index.js
lines 61-64 and 261-271): a non-verbose instance returns immediately; the
one-shot listener registered in the constructor fires on the first start
event only, assigning `spinnerPos` the current counter value and then
incrementing the counter. -/
def startOnce (g : ProcCounter) (s : SpinnerInst) : ProcCounter × SpinnerInst :=
  if s.verbose then
    match s.spinnerPos with
    | none => (⟨g.count + 1⟩, ⟨s.verbose, some g.count⟩)
    | some _ => (g, s)
  else (g, s)

/-- Iterated `start()` calls on one instance. -/
def startIter (g : ProcCounter) (s : SpinnerInst) : Nat → ProcCounter × SpinnerInst
  | 0 => (g, s)
  | k + 1 =>
    let r := startOnce g s
    startIter r.1 r.2 k

/-- A slot of the array `startAll` resolves with, as a JavaScript value: a
resolved task leaves its value, a rejected task leaves the number returned by
`rejects.push(err)` (the new length of the rejection list), and `undefined`
is representable (it is what the specification claims a rejected slot holds). -/
inductive Slot (V : Type) where
  | val (v : V)
  | num (n : Nat)
  | undef
deriving DecidableEq

/-- The fan-out/fan-in join of src/index.js lines 420-430, processed in task
completion order: each task entry is indexed by its submission position; a
resolved task yields its value, a rejected task appends its error to the
rejection list and yields the new list length (the return value of `push`),
exactly as `(err) => rejects.push(err)` does. -/
def settleLoop {E V : Type} [Inhabited V] (tasks : List (Except E V)) :
    List Nat → List E → List (Nat × Slot V)
  | [], _ => []
  | i :: rest, rej =>
    match tasks.getD i (.ok default) with
    | .ok v => (i, .val v) :: settleLoop tasks rest rej
    | .error e => (i, .num (rej.length + 1)) :: settleLoop tasks rest (rej ++ [e])

/-- The rejection list accumulated by the catch handlers, in completion
order. -/
def capturedRejects {E V : Type} [Inhabited V] (tasks : List (Except E V)) :
    List Nat → List E
  | [] => []
  | i :: rest =>
    match tasks.getD i (.ok default) with
    | .ok _ => capturedRejects tasks rest
    | .error e => e :: capturedRejects tasks rest

/-- Whether the task at a submission index rejects. -/
def isRejected {E V : Type} [Inhabited V] (tasks : List (Except E V)) (i : Nat) : Bool :=
  match tasks.getD i (.ok default) with
  | .ok _ => false
  | .error _ => true

/-- The one-based rank of a rejected task among the rejections in completion
order: rejections captured strictly before it, plus one. -/
def rejRank {E V : Type} [Inhabited V] (tasks : List (Except E V))
    (order : List Nat) (i : Nat) : Nat :=
  ((order.takeWhile (fun j => j != i)).filter (isRejected tasks)).length + 1

/-- The options object passed to `startAll`. -/
structure StartAllOpts where
  recap : JsV
  rejects : JsV
deriving DecidableEq

/-- The `is.nullOrUndefined` check on a modelled JavaScript value. -/
def jsNullishB : JsV → Bool
  | .vNull => true
  | _ => false

/-- The `recapSetOpt.has` membership test of src/index.js line 21: only the
strings "none", "error" and "always" are members. -/
def recapSetHasB : JsV → Bool
  | .vStr s => s == "none" || s == "error" || s == "always"
  | _ => false

/-- Resolution of the recap option (src/index.js line 372): a member of the
recap set is kept, anything else falls back to "always". -/
def resolveRecap (v : JsV) : String :=
  if recapSetHasB v then
    match v with
    | .vStr s => s
    | _ => "always"
  else "always"

/-- Resolution of the rejects option (src/index.js line 373): a boolean is
kept, anything else — with no validation — falls back to `true`. -/
def resolveRejects : JsV → Bool
  | .vBool b => b
  | _ => true

/-- What `startAll` resolves with: the result array and the list of error
diagnostics printed after the batch settles. -/
structure StartAllOut (E V : Type) where
  results : List (Slot V)
  printed : List E
deriving DecidableEq

/-- The result array `startAll` resolves with (src/index.js lines 420-430):
the slot at each submission index is whatever the corresponding mapped
promise settled to in the fan-in join. -/
def startAllResults {E V : Type} [Inhabited V] (tasks : List (Except E V))
    (order : List Nat) : List (Slot V) :=
  (List.range tasks.length).map (fun i => ((settleLoop tasks order []).lookup i).getD .undef)

/-- The diagnostics block of src/index.js lines 438-442: each captured
rejection is printed, in capture order, when the resolved rejects option is
true and the list is non-empty. -/
def startAllPrinted {E V : Type} [Inhabited V] (tasks : List (Except E V))
    (opts : StartAllOpts) (order : List Nat) : List E :=
  if resolveRejects opts.rejects && !(capturedRejects tasks order).isEmpty then
    capturedRejects tasks order
  else []

/-- The orchestrator `Spinner.startAll` (src/index.js lines 349-447) on a
batch of already-validated tasks, with `order` the completion order of the
tasks: validate the recap option (line 368; the rejects option is never
validated), settle every task with its rejection caught individually, build
the result array by submission index, and print each captured rejection in
capture order (lines 438-442).  A thrown validation error is the returned
`Except.error`; everything past validation always resolves. -/
def startAllModel {E V : Type} [Inhabited V] (tasks : List (Except E V))
    (opts : StartAllOpts) (order : List Nat) : Except String (StartAllOut E V) :=
  if !jsNullishB opts.recap && !recapSetHasB opts.recap then
    .error "recap option must be none|error|always"
  else
    .ok ⟨startAllResults tasks order, startAllPrinted tasks opts order⟩

example :
    startAllModel [(Except.error "boom" : Except String Nat)] ⟨.vNull, .vNull⟩ [0] =
      .ok ⟨[.num 1], ["boom"]⟩ := rfl
example :
    startAllModel [(Except.ok 7 : Except String Nat), .error "a", .error "b"]
      ⟨.vNull, .vNull⟩ [2, 0, 1] =
      .ok ⟨[.val 7, .num 2, .num 1], ["b", "a"]⟩ := rfl
example :
    startAllModel ([] : List (Except String Nat)) ⟨.vNull, .vStr "yes"⟩ [] =
      .ok ⟨[], []⟩ := rfl
example :
    startAllModel ([.ok 1] : List (Except String Nat)) ⟨.vStr "bogus", .vNull⟩ [0] =
      .error "recap option must be none|error|always" := rfl

lemma startIter_stable (p : Nat) :
    ∀ (k : Nat) (g : ProcCounter), startIter g ⟨true, some p⟩ k = (g, ⟨true, some p⟩) := by
  intro k
  induction k with
  | zero => intro g; rfl
  | succ j ih => intro g; simpa [startIter, startOnce] using ih g

/-- Claim C7 — a verbose spinner instance gets its stack position assigned
exactly once, at its first start: any positive number of start calls on a
fresh verbose instance leaves the position equal to the counter value seen at
the first start and the counter incremented exactly once, and a start on an
instance that already has a position changes nothing. -/
theorem spinner_position_assigned_once (g : ProcCounter) (k : Nat) (hk : 1 ≤ k) :
    startIter g ⟨true, none⟩ k = (⟨g.count + 1⟩, ⟨true, some g.count⟩) ∧
    (∀ (g2 : ProcCounter) (p : Nat), startOnce g2 ⟨true, some p⟩ = (g2, ⟨true, some p⟩)) := by
  constructor
  · obtain ⟨j, rfl⟩ : ∃ j, k = j + 1 := ⟨k - 1, by omega⟩
    have hstep : startOnce g ⟨true, none⟩ = (⟨g.count + 1⟩, ⟨true, some g.count⟩) := rfl
    simpa [startIter, hstep] using startIter_stable g.count j ⟨g.count + 1⟩
  · intro g2 p; rfl

/-- Witness for C7 at a concrete instance: two start calls from counter 5. -/
theorem spinner_position_assigned_once_witness :
    startIter ⟨5⟩ ⟨true, none⟩ 2 = (⟨6⟩, ⟨true, some 5⟩) ∧
    (∀ (g2 : ProcCounter) (p : Nat), startOnce g2 ⟨true, some p⟩ = (g2, ⟨true, some p⟩)) :=
  spinner_position_assigned_once ⟨5⟩ 2 (by decide)

/-- Claim C9 (counterexample) — assigning the empty string to `prefixText`
stores the bare separator, a non-empty prefix that ends with the separator,
where the claim requires a prefix with no separator. -/
theorem prefix_separator_cex :
    setPrefixText (some []) = prefixSep ∧
    prefixSep <:+ setPrefixText (some []) ∧
    setPrefixText (some []) ≠ [] :=
  ⟨rfl, ⟨[], rfl⟩, by decide⟩

/-- Claim C9 (amended) — the stored prefix carries the separator suffix
exactly when the assigned value is a string, the empty string included; a
non-string assignment stores the empty prefix with no separator. -/
theorem prefix_separator_amended (v : List Nat) :
    setPrefixText (some v) = replaceFirstNewline v ++ prefixSep ∧
    prefixSep <:+ setPrefixText (some v) ∧
    setPrefixText none = [] :=
  ⟨rfl, ⟨replaceFirstNewline v, rfl⟩, rfl⟩

/-- Claim C8 (counterexample) — "doesnotexist" names no supported color, yet
the color setter accepts it without error; the configuration error the claim
places at assignment time in fact only surfaces when `lineToRender` runs. -/
theorem color_validation_cex :
    kleurLookup "doesnotexist" = none ∧
    setColor (.vStr "doesnotexist") = .ok (some "doesnotexist") ∧
    lineToRender 20 [[97]] 0 (some "doesnotexist") [] [] none =
      .error "kleur is not a function at this color" :=
  ⟨rfl, rfl, rfl⟩

/-- Claim C8 (amended) — the color setter raises a TypeError synchronously for
non-string non-nullish values only; every string is accepted at assignment,
and a string that names no supported color raises only later, at render
time. -/
theorem color_validation_amended (s : String) (b : Bool) (n : Nat)
    (hks : kleurLookup s = none) :
    setColor (.vStr s) = .ok (some s) ∧
    setColor .vNull = .ok none ∧
    setColor (.vBool b) = .error "Color must be a type of string or undefined" ∧
    setColor (.vNum n) = .error "Color must be a type of string or undefined" ∧
    ∀ (cols : Nat) (frames : List (List Nat)) (i : Nat) (pfx txt : List Nat)
      (sym : Option (List Nat)),
      lineToRender cols frames i (some s) pfx txt sym =
        .error "kleur is not a function at this color" := by
  refine ⟨rfl, rfl, rfl, rfl, ?_⟩
  intro cols frames i pfx txt sym
  simp [lineToRender, hks]

/-- Witness for C8 at the concrete unsupported name "doesnotexist". -/
theorem color_validation_amended_witness :
    setColor (.vStr "doesnotexist") = .ok (some "doesnotexist") ∧
    setColor .vNull = .ok none ∧
    setColor (.vBool true) = .error "Color must be a type of string or undefined" ∧
    setColor (.vNum 3) = .error "Color must be a type of string or undefined" ∧
    ∀ (cols : Nat) (frames : List (List Nat)) (i : Nat) (pfx txt : List Nat)
      (sym : Option (List Nat)),
      lineToRender cols frames i (some "doesnotexist") pfx txt sym =
        .error "kleur is not a function at this color" :=
  color_validation_amended "doesnotexist" true 3 rfl

/-- Claim C10 — every successful assignment to the `spinner` property (custom
object, preset name, or absent) stores frame index 0, and `start()` renders
with the frame index reset to 0 whatever it was before, so the first frame
rendered after a start is `frames[0]`. -/
theorem spinner_assignment_resets_frame (f : List (List Nat)) (iv : Nat)
    (name : String) (sp : SpinnerObjDef) (cols oldIdx : Nat)
    (frames : List (List Nat)) (pfx txt : List Nat)
    (hname : cliSpinnersTable name = some sp) :
    setSpinner (.obj (some f) (some iv)) = .ok (⟨f, iv⟩, 0) ∧
    setSpinner (.str name) = .ok (sp, 0) ∧
    setSpinner .nullish = .ok ((cliSpinnersTable defaultSpinnerName).getD ⟨[], 0⟩, 0) ∧
    startLine cols frames oldIdx none pfx txt =
      .ok (renderRaw cols (rawLineOf (frameAt frames 0) pfx txt), nextIndex frames 0) := by
  refine ⟨rfl, ?_, rfl, rfl⟩
  simp [setSpinner, hname]

/-- Witness for C10 at the "dots" preset and a concrete stale frame index. -/
theorem spinner_assignment_resets_frame_witness :
    setSpinner (.obj (some [[97]]) (some 5)) = .ok (⟨[[97]], 5⟩, 0) ∧
    setSpinner (.str "dots") =
      .ok (⟨[[10251], [10265], [10297], [10296], [10300], [10292], [10278], [10279], [10247], [10255]], 80⟩, 0) ∧
    setSpinner .nullish = .ok ((cliSpinnersTable defaultSpinnerName).getD ⟨[], 0⟩, 0) ∧
    startLine 10 [[98], [99]] 7 none [] [] =
      .ok (renderRaw 10 (rawLineOf (frameAt [[98], [99]] 0) [] []), nextIndex [[98], [99]] 0) :=
  spinner_assignment_resets_frame [[97]] 5 "dots" _ 10 7 [[98], [99]] [] [] rfl

/-- Claim C5 (counterexample) — a rejects option that is not a boolean (here
the string "yes") raises no error at all: the orchestrator resolves normally
and silently treats the option as true. -/
theorem startall_option_validation_cex :
    startAllModel ([] : List (Except String Nat)) ⟨.vNull, .vStr "yes"⟩ [] = .ok ⟨[], []⟩ ∧
    resolveRejects (.vStr "yes") = true ∧
    (∀ b : Bool, JsV.vStr "yes" ≠ .vBool b) :=
  ⟨rfl, rfl, by decide⟩

/-- Claim C5 (amended) — a recap value that is neither nullish nor in the set
of "none", "error", "always" raises the configuration error synchronously,
whatever the tasks are (so before any task executes); an absent recap
defaults to "always" and an absent rejects to true; but a non-boolean rejects
value raises nothing and is silently resolved to the default true. -/
theorem startall_option_validation_amended {E V : Type} [Inhabited V] (v r : JsV)
    (tasks : List (Except E V)) (order : List Nat)
    (hnv : jsNullishB v = false) (hnh : recapSetHasB v = false)
    (hnb : ∀ b : Bool, r ≠ .vBool b) :
    startAllModel tasks ⟨v, r⟩ order = .error "recap option must be none|error|always" ∧
    resolveRecap .vNull = "always" ∧
    resolveRejects .vNull = true ∧
    resolveRejects r = true := by
  refine ⟨by simp [startAllModel, hnv, hnh], rfl, rfl, ?_⟩
  cases r with
  | vBool b => exact absurd rfl (hnb b)
  | vStr s => rfl
  | vNum n => rfl
  | vNull => rfl

/-- Witness for C5 at a concrete invalid recap value and non-boolean rejects
value. -/
theorem startall_option_validation_amended_witness :
    startAllModel ([.ok 1, .error "x"] : List (Except String Nat)) ⟨.vNum 4, .vStr "yes"⟩ [0, 1] =
      .error "recap option must be none|error|always" ∧
    resolveRecap .vNull = "always" ∧
    resolveRejects .vNull = true ∧
    resolveRejects (.vStr "yes") = true :=
  startall_option_validation_amended (.vNum 4) (.vStr "yes") [.ok 1, .error "x"] [0, 1]
    rfl rfl (by decide)

lemma nextIndex_eq_mod (frames : List (List Nat)) (i : Nat) (hi : i < frames.length) :
    nextIndex frames i = (i + 1) % frames.length := by
  unfold nextIndex
  by_cases hlt : i + 1 < frames.length
  · rw [if_pos hlt, Nat.mod_eq_of_lt hlt]
  · have heq : i + 1 = frames.length := by omega
    rw [if_neg hlt, heq, Nat.mod_self]

lemma consumeFrames_mod (frames : List (List Nat)) (h : 0 < frames.length) :
    ∀ (k i : Nat), i < frames.length →
      consumeFrames frames i k =
        ((List.range k).map (fun j => frameAt frames ((i + j) % frames.length)),
         (i + k) % frames.length) := by
  intro k
  induction k with
  | zero =>
    intro i hi
    simp [consumeFrames, Nat.mod_eq_of_lt hi]
  | succ m ih =>
    intro i hi
    have hnext : nextIndex frames i = (i + 1) % frames.length := nextIndex_eq_mod frames i hi
    have hnextlt : (i + 1) % frames.length < frames.length := Nat.mod_lt _ h
    have hrec := ih ((i + 1) % frames.length) hnextlt
    have hmaps :
        (List.range m).map (fun j => frameAt frames (((i + 1) % frames.length + j) % frames.length)) =
        (List.range m).map (fun j => frameAt frames ((i + (j + 1)) % frames.length)) := by
      refine List.map_congr_left ?_
      intro j _
      have : ((i + 1) % frames.length + j) % frames.length = (i + 1 + j) % frames.length :=
        Nat.mod_add_mod (i + 1) frames.length j
      rw [this]
      have : i + 1 + j = i + (j + 1) := by omega
      rw [this]
    have hfin : ((i + 1) % frames.length + m) % frames.length = (i + (m + 1)) % frames.length := by
      rw [Nat.mod_add_mod]
      have : i + 1 + m = i + (m + 1) := by omega
      rw [this]
    calc consumeFrames frames i (m + 1)
        = (frameAt frames i :: (consumeFrames frames (nextIndex frames i) m).1,
           (consumeFrames frames (nextIndex frames i) m).2) := by
          simp [consumeFrames, frameArg]
      _ = ((List.range (m + 1)).map (fun j => frameAt frames ((i + j) % frames.length)),
           (i + (m + 1)) % frames.length) := by
          rw [hnext, hrec]
          simp only [hmaps, hfin]
          rw [List.range_succ_eq_map]
          simp [List.map_map, Function.comp, Nat.mod_eq_of_lt hi]

/-- Claim C6 — from frame index 0, `k` successive symbol-less renders consume
`frames[0 % N], frames[1 % N], ...` in order, the index after `k` renders is
`k % N` (so it wraps to 0 exactly after the N-th render) and always lies
below `N`; and each such render of `lineToRender` advances the index by the
`nextIndex` step. -/
theorem frame_index_cycles (frames : List (List Nat)) (h : 0 < frames.length)
    (k i cols : Nat) (pfx txt : List Nat) :
    (consumeFrames frames 0 k).1 =
      (List.range k).map (fun j => frameAt frames (j % frames.length)) ∧
    (consumeFrames frames 0 k).2 = k % frames.length ∧
    (consumeFrames frames 0 k).2 < frames.length ∧
    lineToRender cols frames i none pfx txt none =
      .ok (renderRaw cols (rawLineOf (frameAt frames i) pfx txt), nextIndex frames i) := by
  have hmain := consumeFrames_mod frames h k 0 h
  refine ⟨?_, ?_, ?_, rfl⟩
  · rw [hmain]; simp
  · rw [hmain]; simp
  · rw [hmain]; simpa using Nat.mod_lt k h

/-- Witness for C6 on a three-frame set rendered seven times. -/
theorem frame_index_cycles_witness :
    (consumeFrames [[97], [98], [99]] 0 7).1 =
      (List.range 7).map (fun j => frameAt [[97], [98], [99]] (j % 3)) ∧
    (consumeFrames [[97], [98], [99]] 0 7).2 = 7 % 3 ∧
    (consumeFrames [[97], [98], [99]] 0 7).2 < 3 ∧
    lineToRender 5 [[97], [98], [99]] 1 none [] [] none =
      .ok (renderRaw 5 (rawLineOf (frameAt [[97], [98], [99]] 1) [] []),
           nextIndex [[97], [98], [99]] 1) := by
  have := frame_index_cycles [[97], [98], [99]] (by decide) 7 1 5 [] []
  simpa using this

/-- Claim C3 (counterexample) — the text setter replaces only the first
newline: assigning "a\nb\nc" stores "ab\nc", which still contains a newline
and differs from the fully stripped value the claim promises. -/
theorem text_strip_cex :
    setText (some [97, 10, 98, 10, 99]) = .ok [97, 98, 10, 99] ∧
    replaceFirstNewline [97, 10, 98, 10, 99] ≠ stripAllNewlines [97, 10, 98, 10, 99] ∧
    10 ∈ replaceFirstNewline [97, 10, 98, 10, 99] :=
  ⟨rfl, by decide, by decide⟩

lemma replaceFirstNewline_no_newline (v : List Nat)
    (h : v.countP (fun c => c == 10 || c == 13) ≤ 1) :
    ∀ c ∈ replaceFirstNewline v, c ≠ 10 ∧ c ≠ 13 := by
  induction v with
  | nil => intro c hc; simp [replaceFirstNewline] at hc
  | cons a rest ih =>
    by_cases h13 : a = 13
    · subst h13
      have h0 : rest.countP (fun c => c == 10 || c == 13) = 0 := by
        rw [List.countP_cons_of_pos _ _ (by decide)] at h
        omega
      have hrest : ∀ c ∈ rest, c ≠ 10 ∧ c ≠ 13 := by
        intro c hc
        have hzero := List.countP_eq_zero.mp h0 c hc
        simp at hzero
        exact ⟨by simpa using hzero.1, by simpa using hzero.2⟩
      cases rest with
      | nil => intro c hc; simp [replaceFirstNewline] at hc
      | cons b r2 =>
        have hb : b ≠ 10 := (hrest b (by simp)).1
        intro c hc
        apply hrest
        simpa [replaceFirstNewline, hb] using hc
    · by_cases h10 : a = 10
      · subst h10
        have h0 : rest.countP (fun c => c == 10 || c == 13) = 0 := by
          rw [List.countP_cons_of_pos _ _ (by decide)] at h
          omega
        intro c hc
        have hc2 : c ∈ rest := by
          simpa [replaceFirstNewline] using hc
        have hzero := List.countP_eq_zero.mp h0 c hc2
        simp at hzero
        exact ⟨by simpa using hzero.1, by simpa using hzero.2⟩
      · intro c hc
        have hc2 : c = a ∨ c ∈ replaceFirstNewline rest := by
          simpa [replaceFirstNewline, h13, h10] using hc
        rcases hc2 with rfl | hc2
        · exact ⟨h10, h13⟩
        · have hrest : rest.countP (fun c => c == 10 || c == 13) ≤ 1 := by
            rw [List.countP_cons_of_neg _ _ (by simp [h10, h13])] at h
            exact h
          exact ih hrest c hc2

/-- Claim C3 (amended) — assignment to `text` removes exactly the first
newline occurrence (`\r\n`, `\n` or `\r`): reading back yields the value
with that single occurrence removed, and only inputs with at most one
newline or carriage-return character read back fully stripped. -/
theorem text_strip_amended (v : List Nat)
    (h : v.countP (fun c => c == 10 || c == 13) ≤ 1) :
    setText (some v) = .ok (replaceFirstNewline v) ∧
    ∀ c ∈ replaceFirstNewline v, c ≠ 10 ∧ c ≠ 13 :=
  ⟨rfl, replaceFirstNewline_no_newline v h⟩

/-- Witness for C3 at "a\rb", a value with one carriage return. -/
theorem text_strip_amended_witness :
    setText (some [97, 13, 98]) = .ok (replaceFirstNewline [97, 13, 98]) ∧
    ∀ c ∈ replaceFirstNewline [97, 13, 98], c ≠ 10 ∧ c ≠ 13 :=
  text_strip_amended [97, 13, 98] (by decide)

lemma settleLoop_lookup {E V : Type} [Inhabited V] (tasks : List (Except E V)) :
    ∀ (order : List Nat) (rej : List E) (i : Nat), i ∈ order →
      (settleLoop tasks order rej).lookup i =
        some (match tasks.getD i (.ok default) with
              | .ok v => Slot.val v
              | .error _ =>
                Slot.num (rej.length +
                  ((order.takeWhile (fun j => j != i)).filter (isRejected tasks)).length + 1)) := by
  intro order
  induction order with
  | nil => intro rej i hmem; cases hmem
  | cons j rest ih =>
    intro rej i hmem
    by_cases hji : j = i
    · subst hji
      have htw : (j :: rest).takeWhile (fun x => x != j) = [] := by
        simp [List.takeWhile_cons]
      rw [htw]
      cases htask : tasks.getD j (.ok default) with
      | ok v =>
        rw [List.getD_eq_getElem?_getD] at htask
        simp [settleLoop, htask, List.lookup, List.getD_eq_getElem?_getD]
      | error e =>
        rw [List.getD_eq_getElem?_getD] at htask
        simp [settleLoop, htask, List.lookup, List.getD_eq_getElem?_getD]
    · have hne : (i == j) = false := by
        simp [Ne.symm hji]
      have hmem2 : i ∈ rest := by
        rcases List.mem_cons.mp hmem with rfl | hm
        · exact absurd rfl hji
        · exact hm
      have htw : (j :: rest).takeWhile (fun x => x != i) =
          j :: rest.takeWhile (fun x => x != i) := by
        simp [List.takeWhile_cons, hji]
      rw [htw]
      cases htask : tasks.getD j (.ok default) with
      | ok w =>
        rw [List.getD_eq_getElem?_getD] at htask
        have hrej : isRejected tasks j = false := by
          simp [isRejected, htask, List.getD_eq_getElem?_getD]
        have hlk : (settleLoop tasks (j :: rest) rej).lookup i =
            (settleLoop tasks rest rej).lookup i := by
          simp [settleLoop, htask, List.lookup, hne, List.getD_eq_getElem?_getD]
        rw [hlk, ih rej i hmem2]
        simp [List.filter_cons, hrej]
      | error e =>
        rw [List.getD_eq_getElem?_getD] at htask
        have hrej : isRejected tasks j = true := by
          simp [isRejected, htask, List.getD_eq_getElem?_getD]
        have hlk : (settleLoop tasks (j :: rest) rej).lookup i =
            (settleLoop tasks rest (rej ++ [e])).lookup i := by
          simp [settleLoop, htask, List.lookup, hne, List.getD_eq_getElem?_getD]
        rw [hlk, ih (rej ++ [e]) i hmem2]
        cases htaski : tasks.getD i (.ok default) with
        | ok v => simp [htaski]
        | error e2 =>
          simp only [htaski, List.filter_cons, hrej, if_pos, List.length_cons,
            List.length_append, List.length_cons, List.length_nil,
            Option.some.injEq, Slot.num.injEq]
          omega

lemma startAllResults_get {E V : Type} [Inhabited V] (tasks : List (Except E V))
    (order : List Nat) (i : Nat) (hi : i < tasks.length) (hmem : i ∈ order) :
    (startAllResults tasks order)[i]? =
      some (match tasks.getD i (.ok default) with
            | .ok v => Slot.val v
            | .error _ => Slot.num (rejRank tasks order i)) := by
  have hrange : (List.range tasks.length)[i]? = some i := by
    simp [List.getElem?_range, hi]
  have hmap :
      (startAllResults tasks order)[i]? =
        some (((settleLoop tasks order []).lookup i).getD .undef) := by
    simp [startAllResults, List.getElem?_map, hrange]
  rw [hmap, settleLoop_lookup tasks order [] i hmem]
  cases htask : tasks.getD i (.ok default) with
  | ok v => simp
  | error e => simp [rejRank]

lemma validRecap_cond {o : StartAllOpts}
    (hv : (jsNullishB o.recap || recapSetHasB o.recap) = true) :
    (!jsNullishB o.recap && !recapSetHasB o.recap) = false := by
  rcases Bool.or_eq_true_iff.mp hv with h | h <;> simp [h]

/-- Claim C2 (counterexample) — a batch of one rejecting task resolves with
`[1]`: the rejected slot holds the number `rejects.push(err)` returned (the
new rejection-list length), not the empty/undefined placeholder the claim
requires. -/
theorem startall_slot_placeholder_cex :
    startAllModel [(Except.error "boom" : Except String Nat)] ⟨.vNull, .vNull⟩ [0] =
      .ok ⟨[.num 1], ["boom"]⟩ ∧
    (Slot.num 1 : Slot Nat) ≠ .undef ∧
    ∀ v : Nat, (Slot.num 1 : Slot Nat) ≠ .val v :=
  ⟨rfl, by decide, fun v h => Slot.noConfusion h⟩

/-- Claim C2 (amended) — on a batch of `n` valid tasks (every task settling,
i.e. the completion order is a permutation of the submission indices) the
orchestrator resolves with an array of length `n` positionally aligned with
the input: a resolved task's slot holds its value, and a rejected task's slot
holds the return value of pushing its error onto the rejection list — the
one-based count of rejections captured up to and including it — rather than
the undefined placeholder. -/
theorem startall_results_amended {E V : Type} [Inhabited V] (tasks : List (Except E V))
    (opts : StartAllOpts) (order : List Nat)
    (hv : (jsNullishB opts.recap || recapSetHasB opts.recap) = true)
    (hp : order.Perm (List.range tasks.length)) :
    startAllModel tasks opts order =
      .ok ⟨startAllResults tasks order, startAllPrinted tasks opts order⟩ ∧
    (startAllResults tasks order).length = tasks.length ∧
    (∀ (i : Nat) (v : V), tasks[i]? = some (.ok v) →
      (startAllResults tasks order)[i]? = some (.val v)) ∧
    (∀ (i : Nat) (e : E), tasks[i]? = some (.error e) →
      (startAllResults tasks order)[i]? = some (.num (rejRank tasks order i))) := by
  have hmem : ∀ i : Nat, i < tasks.length → i ∈ order := by
    intro i hi
    exact hp.mem_iff.mpr (List.mem_range.mpr hi)
  have hlen : ∀ (i : Nat) (x : Except E V), tasks[i]? = some x → i < tasks.length := by
    intro i x hx
    by_contra hge
    rw [List.getElem?_eq_none (by omega)] at hx
    cases hx
  refine ⟨by simp [startAllModel, validRecap_cond hv], by simp [startAllResults], ?_, ?_⟩
  · intro i v htask
    have hi := hlen i _ htask
    have hgd : tasks.getD i (.ok default) = .ok v := by
      rw [List.getD_eq_getElem?_getD, htask]; rfl
    rw [startAllResults_get tasks order i hi (hmem i hi), hgd]
  · intro i e htask
    have hi := hlen i _ htask
    have hgd : tasks.getD i (.ok default) = .error e := by
      rw [List.getD_eq_getElem?_getD, htask]; rfl
    rw [startAllResults_get tasks order i hi (hmem i hi), hgd]

/-- Witness for C2 on the concrete batch `[ok 5, error "x"]` completing in
reverse order. -/
theorem startall_results_amended_witness :
    startAllModel ([.ok 5, .error "x"] : List (Except String Nat)) ⟨.vNull, .vNull⟩ [1, 0] =
      .ok ⟨startAllResults [.ok 5, .error "x"] [1, 0],
           startAllPrinted [.ok 5, .error "x"] ⟨.vNull, .vNull⟩ [1, 0]⟩ ∧
    (startAllResults ([.ok 5, .error "x"] : List (Except String Nat)) [1, 0]).length = 2 ∧
    (∀ (i : Nat) (v : Nat),
      ([.ok 5, .error "x"] : List (Except String Nat))[i]? = some (.ok v) →
      (startAllResults ([.ok 5, .error "x"] : List (Except String Nat)) [1, 0])[i]? =
        some (.val v)) ∧
    (∀ (i : Nat) (e : String),
      ([.ok 5, .error "x"] : List (Except String Nat))[i]? = some (.error e) →
      (startAllResults ([.ok 5, .error "x"] : List (Except String Nat)) [1, 0])[i]? =
        some (.num (rejRank ([.ok 5, .error "x"] : List (Except String Nat)) [1, 0] i))) :=
  startall_results_amended [.ok 5, .error "x"] ⟨.vNull, .vNull⟩ [1, 0] (by decide) (by decide)

/-- Claim C4 — with a valid recap option the orchestrator call never fails:
it resolves whatever the task outcomes are, every rejection is captured
individually (a resolved task keeps its own slot no matter what the others
did), and with the rejects option resolved to true the printed diagnostics
are exactly the captured rejections, each once, in capture order, emitted
after the batch has settled. -/
theorem startall_fault_tolerance {E V : Type} [Inhabited V] (tasks : List (Except E V))
    (opts : StartAllOpts) (order : List Nat)
    (hv : (jsNullishB opts.recap || recapSetHasB opts.recap) = true) :
    startAllModel tasks opts order =
      .ok ⟨startAllResults tasks order, startAllPrinted tasks opts order⟩ ∧
    (resolveRejects opts.rejects = true →
      startAllPrinted tasks opts order = capturedRejects tasks order) ∧
    (startAllResults tasks order).length = tasks.length ∧
    (∀ (i : Nat) (v : V), tasks[i]? = some (.ok v) → i ∈ order →
      (startAllResults tasks order)[i]? = some (.val v)) := by
  refine ⟨by simp [startAllModel, validRecap_cond hv], ?_, by simp [startAllResults], ?_⟩
  · intro hrej
    unfold startAllPrinted
    rw [hrej]
    cases hemp : (capturedRejects tasks order).isEmpty
    · simp
    · simp [List.isEmpty_iff.mp hemp]
  · intro i v htask hmem
    have hi : i < tasks.length := by
      by_contra hge
      rw [List.getElem?_eq_none (by omega)] at htask
      cases htask
    have hgd : tasks.getD i (.ok default) = .ok v := by
      rw [List.getD_eq_getElem?_getD, htask]; rfl
    rw [startAllResults_get tasks order i hi hmem, hgd]

/-- Witness for C4 on the concrete batch `[error "a", ok 9]`. -/
theorem startall_fault_tolerance_witness :
    startAllModel ([.error "a", .ok 9] : List (Except String Nat)) ⟨.vStr "always", .vNull⟩ [0, 1] =
      .ok ⟨startAllResults [.error "a", .ok 9] [0, 1],
           startAllPrinted [.error "a", .ok 9] ⟨.vStr "always", .vNull⟩ [0, 1]⟩ ∧
    (resolveRejects JsV.vNull = true →
      startAllPrinted ([.error "a", .ok 9] : List (Except String Nat)) ⟨.vStr "always", .vNull⟩ [0, 1] =
        capturedRejects ([.error "a", .ok 9] : List (Except String Nat)) [0, 1]) ∧
    (startAllResults ([.error "a", .ok 9] : List (Except String Nat)) [0, 1]).length = 2 ∧
    (∀ (i : Nat) (v : Nat),
      ([.error "a", .ok 9] : List (Except String Nat))[i]? = some (.ok v) → i ∈ [0, 1] →
      (startAllResults ([.error "a", .ok 9] : List (Except String Nat)) [0, 1])[i]? =
        some (.val v)) :=
  startall_fault_tolerance [.error "a", .ok 9] ⟨.vStr "always", .vNull⟩ [0, 1] (by decide)

lemma ansiMatchLen_cons_ne (c : Nat) (rest : List Nat) (h : c ≠ escCode) :
    ansiMatchLen (c :: rest) = none := by
  simp [ansiMatchLen, h]

lemma ansiMatchesF_nil_of_noEsc :
    ∀ (fuel : Nat) (l : List Nat), (∀ c ∈ l, c ≠ escCode) → ansiMatchesF fuel l = [] := by
  intro fuel
  induction fuel with
  | zero => intro l _; cases l <;> rfl
  | succ f ih =>
    intro l h
    cases l with
    | nil => rfl
    | cons c rest =>
      have hc : c ≠ escCode := h c (by simp)
      have hrest : ∀ x ∈ rest, x ≠ escCode := fun x hx => h x (by simp [hx])
      simp [ansiMatchesF, ansiMatchLen_cons_ne c rest hc, ih rest hrest]

lemma ansiMatches_nil_of_noEsc (l : List Nat) (h : ∀ c ∈ l, c ≠ escCode) :
    ansiMatches l = [] :=
  ansiMatchesF_nil_of_noEsc l.length l h

lemma stripAnsi_cons_ne (c : Nat) (t : List Nat) (h : c ≠ escCode) :
    stripAnsi (c :: t) = c :: stripAnsi t := by
  simp [stripAnsi, stripAnsiF, ansiMatchLen_cons_ne c t h]

lemma stripAnsi_noEsc (l : List Nat) (h : ∀ c ∈ l, c ≠ escCode) :
    stripAnsi l = l := by
  induction l with
  | nil => rfl
  | cons c t ih =>
    have hc : c ≠ escCode := h c (by simp)
    have ht : ∀ x ∈ t, x ≠ escCode := fun x hx => h x (by simp [hx])
    rw [stripAnsi_cons_ne c t hc, ih ht]

lemma stripAnsi_append_noEsc (l m : List Nat) (h : ∀ c ∈ l, c ≠ escCode) :
    stripAnsi (l ++ m) = l ++ stripAnsi m := by
  induction l with
  | nil => simp
  | cons c t ih =>
    have hc : c ≠ escCode := h c (by simp)
    have ht : ∀ x ∈ t, x ≠ escCode := fun x hx => h x (by simp [hx])
    rw [List.cons_append, stripAnsi_cons_ne c (t ++ m) hc, ih ht, List.cons_append]

lemma stripAnsi_resetSeq : stripAnsi resetSeq = [] := rfl

lemma wcwidthStr_le_length (l : List Nat) (h : ∀ c ∈ l, wcwidthChar c ≤ 1) :
    wcwidthStr l ≤ l.length := by
  induction l with
  | nil => simp [wcwidthStr]
  | cons c t ih =>
    have hc : wcwidthChar c ≤ 1 := h c (by simp)
    have ht : ∀ x ∈ t, wcwidthChar x ≤ 1 := fun x hx => h x (by simp [hx])
    have := ih ht
    simp only [wcwidthStr, List.map_cons, List.sum_cons, List.length_cons] at *
    omega

lemma fixCount_zero_of_noEsc (raw : List Nat) (cols fuel : Nat)
    (h : ∀ c ∈ raw, c ≠ escCode) :
    fixCount raw cols (fuel + 1) 0 = 0 := by
  have hm : ansiMatches (raw.take cols) = [] :=
    ansiMatches_nil_of_noEsc _ (fun c hc => h c (List.mem_of_mem_take hc))
  simp [fixCount, hm]

lemma renderRaw_clean (cols : Nat) (raw : List Nat)
    (h : ∀ c ∈ raw, c ≠ escCode ∧ wcwidthChar c ≤ 1) :
    wcwidthStr (stripAnsi (renderRaw cols raw)) ≤ cols ∧
    (∀ c ∈ stripAnsi (renderRaw cols raw), c ≠ escCode) ∧
    (cols < wcwidthStr raw → renderRaw cols raw = raw.take cols ++ resetSeq) := by
  have hesc : ∀ c ∈ raw, c ≠ escCode := fun c hc => (h c hc).1
  have hw : ∀ c ∈ raw, wcwidthChar c ≤ 1 := fun c hc => (h c hc).2
  have hstrip : stripAnsi raw = raw := stripAnsi_noEsc raw hesc
  have hfix : fixCount raw cols (raw.length + 2) 0 = 0 :=
    fixCount_zero_of_noEsc raw cols (raw.length + 1) hesc
  have harr : ansiMatches (raw.take cols) = [] :=
    ansiMatches_nil_of_noEsc _ (fun c hc => hesc c (List.mem_of_mem_take hc))
  have htesc : ∀ c ∈ raw.take cols, c ≠ escCode :=
    fun c hc => hesc c (List.mem_of_mem_take hc)
  by_cases hcols : cols < wcwidthStr raw
  · have hgt : cols < wcwidthStr (stripAnsi raw) := by rw [hstrip]; exact hcols
    have hout : renderRaw cols raw = raw.take cols ++ resetSeq := by
      simp [renderRaw, hfix, harr, hgt]
    have hsout : stripAnsi (renderRaw cols raw) = raw.take cols := by
      rw [hout, stripAnsi_append_noEsc _ _ htesc, stripAnsi_resetSeq, List.append_nil]
    refine ⟨?_, ?_, fun _ => hout⟩
    · rw [hsout]
      calc wcwidthStr (raw.take cols)
          ≤ (raw.take cols).length :=
            wcwidthStr_le_length _ (fun c hc => hw c (List.mem_of_mem_take hc))
        _ ≤ cols := by simp [List.length_take]
    · rw [hsout]; exact htesc
  · have hng : ¬ cols < wcwidthStr (stripAnsi raw) := by rw [hstrip]; exact hcols
    have hout : renderRaw cols raw = raw := by
      simp [renderRaw, hfix, harr, hng]
    refine ⟨?_, ?_, fun hlt => absurd hlt hcols⟩
    · rw [hout, hstrip]; omega
    · rw [hout, hstrip]; exact hesc

/-- Claim C1 (counterexample) — the renderer violates the width contract and
the no-split contract.  First input: width 4, plain braille frame, four CJK
double-width characters; the code truncates by raw character count, so the
rendered line still measures 6 visible columns.  Second input: width 2 with a
red color; the slice cuts through the opening color sequence, leaving a bare
escape byte that survives stripping — a split escape sequence. -/
theorem line_renderer_cex :
    (lineToRender 4 [[10251]] 0 none [] [19968, 19968, 19968, 19968] none =
      .ok ([10251, 32, 19968, 19968, 27, 91, 48, 109], 0)) ∧
    4 < wcwidthStr (stripAnsi [10251, 32, 19968, 19968, 27, 91, 48, 109]) ∧
    (lineToRender 2 [[10251]] 0 (some "red") [] [104, 101, 121] none =
      .ok ([27, 91, 27, 91, 48, 109], 0)) ∧
    escCode ∈ stripAnsi [27, 91, 27, 91, 48, 109] :=
  ⟨rfl, by decide, rfl, by decide⟩

/-- Claim C1 (amended) — the truncation contract holds on escape-free,
single-width content: when no color is set and the frame glyph, prefix and
body contain no escape character and only single-width characters, the
rendered line's visible width (escape sequences stripped) never exceeds the
terminal width, no escape byte survives stripping (no split sequence), and a
truncated line is exactly the raw slice with the style-reset sequence
appended; moreover, for every input whatsoever, a truncated line ends with
the style-reset sequence. -/
theorem line_renderer_amended (cols : Nat) (frames : List (List Nat)) (i : Nat)
    (pfx txt : List Nat) (sym : Option (List Nat)) (out : List Nat) (idx2 : Nat)
    (hf : ∀ c ∈ frameArg frames i sym, c ≠ escCode ∧ wcwidthChar c ≤ 1)
    (hp : ∀ c ∈ pfx, c ≠ escCode ∧ wcwidthChar c ≤ 1)
    (ht : ∀ c ∈ txt, c ≠ escCode ∧ wcwidthChar c ≤ 1)
    (hrun : lineToRender cols frames i none pfx txt sym = .ok (out, idx2)) :
    wcwidthStr (stripAnsi out) ≤ cols ∧
    (∀ c ∈ stripAnsi out, c ≠ escCode) ∧
    (cols < wcwidthStr (rawLineOf (frameArg frames i sym) pfx txt) →
      out = (rawLineOf (frameArg frames i sym) pfx txt).take cols ++ resetSeq) ∧
    (∀ raw2 : List Nat, cols < wcwidthStr (stripAnsi raw2) →
      resetSeq <:+ renderRaw cols raw2) := by
  have hclean : ∀ c ∈ rawLineOf (frameArg frames i sym) pfx txt,
      c ≠ escCode ∧ wcwidthChar c ≤ 1 := by
    intro c hc
    simp only [rawLineOf, List.append_assoc, List.mem_append, List.mem_singleton] at hc
    rcases hc with hc | hc | hc | hc
    · exact hf c hc
    · subst hc; exact ⟨by decide, by decide⟩
    · exact hp c hc
    · exact ht c hc
  have hout : out = renderRaw cols (rawLineOf (frameArg frames i sym) pfx txt) := by
    cases sym with
    | none =>
      have := hrun
      simp only [lineToRender] at this
      exact (Prod.mk.injEq _ _ _ _ ▸ (Except.ok.injEq _ _ ▸ this)).1.symm
    | some s =>
      have := hrun
      simp only [lineToRender] at this
      exact (Prod.mk.injEq _ _ _ _ ▸ (Except.ok.injEq _ _ ▸ this)).1.symm
  have hmain := renderRaw_clean cols (rawLineOf (frameArg frames i sym) pfx txt) hclean
  refine ⟨?_, ?_, ?_, ?_⟩
  · rw [hout]; exact hmain.1
  · rw [hout]; exact hmain.2.1
  · intro hlt; rw [hout]; exact hmain.2.2 hlt
  · intro raw2 hlt
    have : renderRaw cols raw2 =
        raw2.take (cols + (fixCount raw2 cols (raw2.length + 2) 0 +
          ((ansiMatches (raw2.take (cols + fixCount raw2 cols (raw2.length + 2) 0))).map
            wcwidthStr).sum)) ++ resetSeq := by
      simp [renderRaw, hlt]
    rw [this]
    exact ⟨_, rfl⟩

/-- Witness for C1 at width 10 with the plain frame "a" and body "bc". -/
theorem line_renderer_amended_witness :
    wcwidthStr (stripAnsi [97, 32, 98, 99]) ≤ 10 ∧
    (∀ c ∈ stripAnsi [97, 32, 98, 99], c ≠ escCode) ∧
    (10 < wcwidthStr (rawLineOf (frameArg [[97]] 0 none) [] [98, 99]) →
      [97, 32, 98, 99] = (rawLineOf (frameArg [[97]] 0 none) [] [98, 99]).take 10 ++ resetSeq) ∧
    (∀ raw2 : List Nat, 10 < wcwidthStr (stripAnsi raw2) →
      resetSeq <:+ renderRaw 10 raw2) :=
  line_renderer_amended 10 [[97]] 0 [] [98, 99] none [97, 32, 98, 99] 0
    (by decide) (by decide) (by decide) rfl
